import Mathlib

set_option maxHeartbeats 1000000
set_option maxRecDepth 100000

/-!
Verification development for the emapi codec (emapi.c / emapi.h).

The C sources are shallowly embedded: byte buffers become `List Nat`
(each entry one `__u8` value) or, on the read side, a memory image
`Nat → Nat` giving the byte at each address; structs become Lean
structures whose fields are `Nat` with the C bit-field / integer widths
expressed as range invariants; pointer nullness becomes `Option` /
`Bool`; C integer conversions to `__u8` / `__u32` are reduction modulo
2^8 / 2^32.
-/

namespace Emapi

/-- Length of struct emapi_hdr in bytes (EMLN_HDR in emapi.h). -/
def EMLN_HDR : Nat := 12

/-- Maximum length of a device name (EMLN_DEV_NAME in emapi.h). -/
def EMLN_DEV_NAME : Nat := 125

/-- Maximum number of devices returned (EMLN_DEV_NUM in emapi.h). -/
def EMLN_DEV_NUM : Nat := 64

/-- enum _EMOB: EMOB_NULL. -/
def EMOB_NULL : Nat := 0

/-- enum _EMOB: EMOB_HDR. -/
def EMOB_HDR : Nat := 1

/-- enum _EMOB: EMOB_LIST_DEV. -/
def EMOB_LIST_DEV : Nat := 2

/-- enum _EMOB: EMOB_MAX. -/
def EMOB_MAX : Nat := 3

/-- enum _EMMT: EMMT_MAX. -/
def EMMT_MAX : Nat := 3

/-- enum _EMOP: opcode EMOP_EVENT. -/
def EMOP_EVENT : Nat := 0x00

/-- enum _EMOP: opcode EMOP_LIST_DEV. -/
def EMOP_LIST_DEV : Nat := 0x01

/-- enum _EMOP: opcode EMOP_CONN_DEV. -/
def EMOP_CONN_DEV : Nat := 0x02

/-- enum _EMOP: opcode EMOP_DISCON_DEV. -/
def EMOP_DISCON_DEV : Nat := 0x03

/-- enum _EMOP: EMOP_MAX. -/
def EMOP_MAX : Nat := 4

/-- enum _EMRC: EMRC_MAX. -/
def EMRC_MAX : Nat := 6

/-- struct emapi_hdr from emapi.h, fields in declaration order.
C bit-field and integer widths (type:4, ver:4, tag/rc/opcode/a/rsvd
8-bit, len 16-bit, b 32-bit) are captured by `emapi_hdr.Wf`. -/
structure emapi_hdr where
  type : Nat
  ver : Nat
  tag : Nat
  rc : Nat
  opcode : Nat
  a : Nat
  rsvd : Nat
  len : Nat
  b : Nat
deriving DecidableEq, Repr

/-- Range invariants matching the C field widths of struct emapi_hdr. -/
def emapi_hdr.Wf (h : emapi_hdr) : Prop :=
  h.type < 16 ∧ h.ver < 16 ∧ h.tag < 256 ∧ h.rc < 256 ∧ h.opcode < 256 ∧
  h.a < 256 ∧ h.rsvd < 256 ∧ h.len < 65536 ∧ h.b < 4294967296

instance : DecidablePred emapi_hdr.Wf := fun h => by
  unfold emapi_hdr.Wf
  infer_instance

/-- A zero-initialized struct emapi_hdr (C memset to 0). -/
def emapi_hdr.zero : emapi_hdr :=
  { type := 0, ver := 0, tag := 0, rc := 0, opcode := 0, a := 0, rsvd := 0,
    len := 0, b := 0 }

/-- struct emapi_dev from emapi.h.  The C struct stores a `len` byte and
a 125-byte `name` buffer of which the first `len` bytes are meaningful;
the abstract value keeps exactly those meaningful bytes, so the C `len`
field is `name.length`. -/
structure emapi_dev where
  id : Nat
  name : List Nat
deriving DecidableEq, Repr

/-- struct emapi_msg from emapi.h: a header plus the decoded-object
storage (union member dev[EMLN_DEV_NUM]). -/
structure emapi_msg where
  hdr : emapi_hdr
  obj : List emapi_dev
deriving DecidableEq, Repr

/-- Byte image of a buffer: address i reads `src[i]`, and 0 past the
end (the C code would read whatever adjacent memory holds there). -/
def bufMem (src : List Nat) : Nat → Nat := fun i => src.getD i 0

/-- C memcpy of the byte list `bs` into `dst` starting at offset `k`. -/
def memcpy (dst : List Nat) (k : Nat) : List Nat → List Nat
  | [] => dst
  | b :: bs => memcpy (dst.set k b) (k + 1) bs

/-- The EMOB_HDR arm of emapi_serialize (emapi.c lines 326-342):
eleven stores into dst at offsets 0-4 and 6-11; offset 5 is never
assigned. -/
def emapi_serialize_hdr (o : emapi_hdr) (dst : List Nat) : List Nat :=
  (((((((((((dst.set 0 (((o.ver <<< 4) &&& 0xF0) ||| (o.type &&& 0x0F))).set 1
    o.tag).set 2 o.rc).set 3 o.opcode).set 4 o.a).set 6
    (o.len &&& 0x00FF)).set 7 ((o.len >>> 8) &&& 0x00FF)).set 8
    (o.b &&& 0x00FF)).set 9 ((o.b >>> 8) &&& 0x00FF)).set 10
    ((o.b >>> 16) &&& 0x00FF)).set 11 ((o.b >>> 24) &&& 0x00FF))

/-- The EMOB_LIST_DEV arm of emapi_serialize (emapi.c lines 344-352):
dst[0] = id, dst[1] = len, memcpy(&dst[2], name, len). -/
def emapi_serialize_dev (o : emapi_dev) (dst : List Nat) : List Nat :=
  memcpy ((dst.set 0 o.id).set 1 o.name.length) 2 o.name

/-- The object handed to emapi_serialize through its void* src,
together with which struct it actually is. -/
inductive SerObj where
  | hdr (o : emapi_hdr)
  | dev (o : emapi_dev)
deriving DecidableEq, Repr

/-- emapi_serialize (emapi.c lines 313-361).  `dst = none` models a
NULL destination pointer.  The result is `none` when the C code would
dereference an invalid pointer (NULL dst on a valid kind, or a src
object reinterpreted at the wrong type); otherwise it is
`some (rv, dst-contents-after-the-call)`.  Note the input-validation
branch tests only the kind, never the pointers. -/
def emapi_serialize (dst : Option (List Nat)) (src : SerObj) (ty : Nat) :
    Option (Nat × Option (List Nat)) :=
  if ty = EMOB_NULL ∨ EMOB_MAX ≤ ty then
    some (0, dst)
  else
    match dst, src, ty with
    | none, _, _ => none
    | some d, SerObj.hdr o, 1 => some (EMLN_HDR, some (emapi_serialize_hdr o d))
    | some d, SerObj.dev o, 2 =>
        some (o.name.length + 2, some (emapi_serialize_dev o d))
    | some _, _, _ => none

/-- The EMOB_HDR arm of emapi_deserialize (emapi.c lines 114-127).
It assigns every field except rsvd, which keeps the destination
struct's prior contents. -/
def emapi_deserialize_hdr (prior : emapi_hdr) (src : Nat → Nat) : emapi_hdr :=
  { ver := (src 0 >>> 4) &&& 0x0F
    type := (src 0) &&& 0x0F
    tag := src 1
    rc := src 2
    opcode := src 3
    a := src 4
    rsvd := prior.rsvd
    len := (src 7 <<< 8) ||| src 6
    b := (src 11 <<< 24) ||| (src 10 <<< 16) ||| (src 9 <<< 8) ||| src 8 }

/-- The EMOB_LIST_DEV loop of emapi_deserialize (emapi.c lines
129-155): starting at cursor `k`, read `num` records of the form
id, len, then len name bytes (name[0] set to 0 when len = 0),
advancing the cursor by 2 + len each time; no bounds or capacity
check of any kind.  Returns the records and the final cursor (the
returned rv). -/
def emapi_deserialize_list (src : Nat → Nat) (k : Nat) : Nat → List emapi_dev × Nat
  | 0 => ([], k)
  | Nat.succ n =>
    let id := src k
    let len := src (k + 1)
    let name := if len = 0 then [] else (List.range len).map fun j => src (k + 2 + j)
    let rest := emapi_deserialize_list src (k + 2 + len) n
    (⟨id, name⟩ :: rest.1, rest.2)

/-- Result of emapi_deserialize: the C rv plus what was stored through
dst. -/
inductive DeserOut where
  | err
  | nullOb
  | hdr (o : emapi_hdr) (rv : Nat)
  | list (objs : List emapi_dev) (rv : Nat)
deriving DecidableEq, Repr

/-- The int returned by emapi_deserialize for each outcome. -/
def DeserOut.rv : DeserOut → Int
  | .err => -1
  | .nullOb => 0
  | .hdr _ n => n
  | .list _ n => n

/-- emapi_deserialize (emapi.c lines 96-164).  `dstPresent = false`
models a NULL dst pointer; `prior` is the destination struct's
contents before the call (used only by the EMOB_HDR arm, whose rsvd
field is never written); `param = none` models a NULL param pointer,
in which case the list arm assumes one record. -/
def emapi_deserialize (dstPresent : Bool) (prior : emapi_hdr) (src : Nat → Nat)
    (ty : Nat) (param : Option Nat) : DeserOut :=
  if dstPresent = false ∨ EMOB_MAX ≤ ty then
    DeserOut.err
  else if ty = EMOB_NULL then
    DeserOut.nullOb
  else if ty = EMOB_HDR then
    DeserOut.hdr (emapi_deserialize_hdr prior src) EMLN_HDR
  else
    let num := match param with
      | none => 1
      | some n => n
    let r := emapi_deserialize_list src 0 num
    DeserOut.list r.1 r.2

/-- emapi_fill_conn (emapi.c lines 209-235): NULL target returns 1;
otherwise the header is zeroed and opcode, a, b are stamped.  The C
int arguments are converted to __u8 / __u32 on assignment, i.e.
reduced modulo 2^8 / 2^32. -/
def emapi_fill_conn (m : Option emapi_msg) (ppid dev : Nat) :
    Nat × Option emapi_msg :=
  match m with
  | none => (1, none)
  | some m =>
    (0, some { m with hdr :=
      { type := 0, ver := 0, tag := 0, rc := 0, opcode := EMOP_CONN_DEV,
        a := ppid % 256, rsvd := 0, len := 0, b := dev % 4294967296 } })

/-- emapi_fill_disconn (emapi.c lines 243-269). -/
def emapi_fill_disconn (m : Option emapi_msg) (ppid all : Nat) :
    Nat × Option emapi_msg :=
  match m with
  | none => (1, none)
  | some m =>
    (0, some { m with hdr :=
      { type := 0, ver := 0, tag := 0, rc := 0, opcode := EMOP_DISCON_DEV,
        a := ppid % 256, rsvd := 0, len := 0, b := all % 4294967296 } })

/-- emapi_fill_listdev (emapi.c lines 277-303). -/
def emapi_fill_listdev (m : Option emapi_msg) (num start : Nat) :
    Nat × Option emapi_msg :=
  match m with
  | none => (1, none)
  | some m =>
    (0, some { m with hdr :=
      { type := 0, ver := 0, tag := 0, rc := 0, opcode := EMOP_LIST_DEV,
        a := num % 256, rsvd := 0, len := 0, b := start % 4294967296 } })

/-- emapi_emob_req (emapi.c lines 369-379). -/
def emapi_emob_req (opcode : Nat) : Nat :=
  if opcode = EMOP_EVENT then EMOB_NULL
  else if opcode = EMOP_LIST_DEV then EMOB_LIST_DEV
  else if opcode = EMOP_CONN_DEV then EMOB_NULL
  else if opcode = EMOP_DISCON_DEV then EMOB_NULL
  else EMOB_NULL

/-- emapi_emob_rsp (emapi.c lines 387-397). -/
def emapi_emob_rsp (opcode : Nat) : Nat :=
  if opcode = EMOP_EVENT then EMOB_NULL
  else if opcode = EMOP_LIST_DEV then EMOB_LIST_DEV
  else if opcode = EMOP_CONN_DEV then EMOB_NULL
  else if opcode = EMOP_DISCON_DEV then EMOB_NULL
  else EMOB_NULL

/-- const char *STR_EMMT[] (emapi.c lines 42-46). -/
def STR_EMMT : List String := ["Request", "Response", "Event"]

/-- const char *STR_EMOB[] (emapi.c lines 51-55). -/
def STR_EMOB : List String := ["Null", "emob_hdr", "emob_dev"]

/-- const char *STR_EMOP[] (emapi.c lines 60-65). -/
def STR_EMOP : List String :=
  ["Event Notification", "List Devices", "Connect Device", "Disconnect Device"]

/-- const char *STR_EMRC[] (emapi.c lines 70-77). -/
def STR_EMRC : List String :=
  ["Success", "Background operation started", "Invalid input", "Unsupported",
   "Internal error", "Busy"]

/-- emmt (emapi.c lines 401-405); `none` models the NULL return. -/
def emmt (u : Nat) : Option String :=
  if EMMT_MAX ≤ u then none else some (STR_EMMT.getD u "")

/-- emob (emapi.c lines 407-411). -/
def emob (u : Nat) : Option String :=
  if EMOB_MAX ≤ u then none else some (STR_EMOB.getD u "")

/-- emop (emapi.c lines 413-417). -/
def emop (u : Nat) : Option String :=
  if EMOP_MAX ≤ u then none else some (STR_EMOP.getD u "")

/-- emrc (emapi.c lines 419-423). -/
def emrc (u : Nat) : Option String :=
  if EMRC_MAX ≤ u then none else some (STR_EMRC.getD u "")

/-- The exact byte string a descriptor serializes to: id, len, then the
name bytes (wire image [id][len][name...]). -/
def devBytes (d : emapi_dev) : List Nat :=
  d.id :: d.name.length :: d.name

/-- Concatenation of the per-descriptor byte strings in list order. -/
def listBytes (L : List emapi_dev) : List Nat :=
  (L.map devBytes).flatten

/-- The test header used by verify_hdr in testbench.c (lines 105-130). -/
def sampleHdr : emapi_hdr :=
  { type := 1, ver := 0, tag := 0x42, rc := 0xCD, opcode := 0xAB, a := 0x23,
    rsvd := 0, len := 0x1FFF, b := 0x12345678 }

end Emapi

namespace Emapi

/-- Masking with 255 is reduction modulo 256. -/
theorem and_255_eq_mod (x : Nat) : x &&& 255 = x % 256 := by
  have h := Nat.and_pow_two_sub_one_eq_mod x 8
  norm_num at h
  exact h

/-- Bitwise or of numbers with disjoint bit ranges is addition. -/
theorem lor_eq_add_of_disjoint (k a b : Nat) (ha : a % 2 ^ k = 0)
    (hb : b < 2 ^ k) : a ||| b = a + b := by
  obtain ⟨c, hc⟩ := Nat.dvd_of_mod_eq_zero ha
  subst hc
  exact (Nat.mul_add_lt_is_or hb c).symm

theorem lor_add_24 (a b : Nat) (ha : a % 16777216 = 0) (hb : b < 16777216) :
    a ||| b = a + b :=
  lor_eq_add_of_disjoint 24 a b (by norm_num; exact ha) (by norm_num; exact hb)

theorem lor_add_16 (a b : Nat) (ha : a % 65536 = 0) (hb : b < 65536) :
    a ||| b = a + b :=
  lor_eq_add_of_disjoint 16 a b (by norm_num; exact ha) (by norm_num; exact hb)

theorem lor_add_8 (a b : Nat) (ha : a % 256 = 0) (hb : b < 256) :
    a ||| b = a + b :=
  lor_eq_add_of_disjoint 8 a b (by norm_num; exact ha) (by norm_num; exact hb)

/-- Packing ver and type into byte 0 and unpacking them is the
identity on 4-bit values. -/
theorem byte0_roundtrip : ∀ v < 16, ∀ t < 16,
    ((((v <<< 4) &&& 0xF0) ||| (t &&& 0x0F)) >>> 4) &&& 0x0F = v ∧
    (((v <<< 4) &&& 0xF0) ||| (t &&& 0x0F)) &&& 0x0F = t := by decide

/-- Splitting a 16-bit value into two bytes and recombining them is
the identity. -/
theorem len_roundtrip (len : Nat) (hl : len < 65536) :
    ((((len >>> 8) &&& 255) <<< 8) ||| (len &&& 255)) = len := by
  rw [and_255_eq_mod, and_255_eq_mod, Nat.shiftRight_eq_div_pow, Nat.shiftLeft_eq]
  rw [lor_eq_add_of_disjoint 8 _ _ (by simp [Nat.mul_mod_left])
    (by norm_num [Nat.mod_lt])]
  norm_num
  omega

/-- Splitting a 32-bit value into four bytes and recombining them is
the identity. -/
theorem b_roundtrip (b : Nat) (hb : b < 4294967296) :
    ((((b >>> 24) &&& 255) <<< 24) ||| (((b >>> 16) &&& 255) <<< 16) |||
      (((b >>> 8) &&& 255) <<< 8) ||| (b &&& 255)) = b := by
  rw [and_255_eq_mod, and_255_eq_mod, and_255_eq_mod, and_255_eq_mod,
    Nat.shiftRight_eq_div_pow, Nat.shiftRight_eq_div_pow, Nat.shiftRight_eq_div_pow,
    Nat.shiftLeft_eq, Nat.shiftLeft_eq, Nat.shiftLeft_eq]
  norm_num
  rw [lor_add_24 (b / 16777216 % 256 * 16777216) (b / 65536 % 256 * 65536)
    (by omega) (by omega)]
  rw [lor_add_16 (b / 16777216 % 256 * 16777216 + b / 65536 % 256 * 65536)
    (b / 256 % 256 * 256) (by omega) (by omega)]
  rw [lor_add_8 _ (b % 256) (by omega) (by omega)]
  omega

/-- The bytes emapi_serialize_hdr leaves in a zeroed 12-byte buffer. -/
theorem serialize_hdr_replicate (o : emapi_hdr) :
    emapi_serialize_hdr o (List.replicate 12 0) =
      [((o.ver <<< 4) &&& 0xF0) ||| (o.type &&& 0x0F), o.tag, o.rc, o.opcode,
       o.a, 0, o.len &&& 0xFF, (o.len >>> 8) &&& 0xFF, o.b &&& 0xFF,
       (o.b >>> 8) &&& 0xFF, (o.b >>> 16) &&& 0xFF, (o.b >>> 24) &&& 0xFF] := rfl

theorem memcpy_cons (x : Nat) (dst : List Nat) (k : Nat) (bs : List Nat) :
    memcpy (x :: dst) (k + 1) bs = x :: memcpy dst k bs := by
  induction bs generalizing x dst k with
  | nil => rfl
  | cons b bs ih =>
    show memcpy ((x :: dst).set (k + 1) b) (k + 1 + 1) bs = _
    rw [List.set_cons_succ, ih]
    rfl

theorem memcpy_replicate (bs : List Nat) :
    memcpy (List.replicate bs.length 0) 0 bs = bs := by
  induction bs with
  | nil => rfl
  | cons b bs ih =>
    show memcpy ((List.replicate (bs.length + 1) 0).set 0 b) 1 bs = _
    rw [List.replicate_succ, List.set_cons_zero]
    rw [show (1 : Nat) = 0 + 1 from rfl, memcpy_cons, ih]

/-- Serializing one descriptor into a zeroed buffer of its exact wire
size yields exactly the wire image id, len, name bytes. -/
theorem serialize_dev_replicate (o : emapi_dev) :
    emapi_serialize_dev o (List.replicate (2 + o.name.length) 0) = devBytes o := by
  unfold emapi_serialize_dev devBytes
  rw [show 2 + o.name.length = o.name.length + 1 + 1 from by omega]
  rw [List.replicate_succ, List.replicate_succ]
  rw [List.set_cons_zero, List.set_cons_succ, List.set_cons_zero]
  rw [show (2 : Nat) = 1 + 1 from rfl, memcpy_cons]
  rw [show (1 : Nat) = 0 + 1 from rfl, memcpy_cons, memcpy_replicate]

theorem length_listBytes (L : List emapi_dev) :
    (listBytes L).length = (L.map fun d => 2 + d.name.length).sum := by
  induction L with
  | nil => rfl
  | cons d L ih =>
    simp only [listBytes, List.map_cons, List.flatten_cons, List.length_append,
      List.sum_cons] at *
    simp only [devBytes, List.length_cons]
    omega

/-- Decoding `L.length` records from any memory whose window at `k`
holds the wire image of `L` recovers exactly `L` and moves the cursor
to the end of the window. -/
theorem deserialize_list_spec (L : List emapi_dev) (mem : Nat → Nat) (k : Nat)
    (hmem : ∀ i, i < (listBytes L).length → mem (k + i) = (listBytes L).getD i 0) :
    emapi_deserialize_list mem k L.length = (L, k + (listBytes L).length) := by
  induction L generalizing k with
  | nil => simp [listBytes, emapi_deserialize_list]
  | cons d L ih =>
    have hlb : listBytes (d :: L) = devBytes d ++ listBytes L := by
      simp [listBytes]
    have hlen : (listBytes (d :: L)).length
        = 2 + d.name.length + (listBytes L).length := by
      simp [hlb, devBytes]
      omega
    have hid : mem k = d.id := by
      have := hmem 0 (by rw [hlen]; omega)
      simpa [hlb, devBytes] using this
    have hln : mem (k + 1) = d.name.length := by
      have := hmem 1 (by rw [hlen]; omega)
      simpa [hlb, devBytes] using this
    have hname : ∀ j, j < d.name.length → mem (k + 2 + j) = d.name.getD j 0 := by
      intro j hj
      have := hmem (2 + j) (by rw [hlen]; omega)
      rw [show k + (2 + j) = k + 2 + j from by omega] at this
      rw [this, hlb]
      simp only [devBytes, List.cons_append]
      rw [show (2 + j : Nat) = j + 1 + 1 from by omega]
      rw [List.getD_cons_succ, List.getD_cons_succ]
      exact List.getD_append _ _ _ _ hj
    have htail : ∀ i, i < (listBytes L).length →
        mem (k + (2 + d.name.length) + i) = (listBytes L).getD i 0 := by
      intro i hi
      have := hmem (2 + d.name.length + i) (by rw [hlen]; omega)
      rw [show k + (2 + d.name.length + i) = k + (2 + d.name.length) + i
        from by omega] at this
      rw [this, hlb]
      simp only [devBytes, List.cons_append]
      rw [show (2 + d.name.length + i : Nat) = d.name.length + i + 1 + 1
        from by omega]
      rw [List.getD_cons_succ, List.getD_cons_succ]
      rw [List.getD_append_right _ _ _ _ (by omega)]
      congr 1
      omega
    show (⟨mem k, if mem (k + 1) = 0 then [] else
        (List.range (mem (k + 1))).map fun j => mem (k + 2 + j)⟩ ::
        (emapi_deserialize_list mem (k + 2 + mem (k + 1)) L.length).1,
        (emapi_deserialize_list mem (k + 2 + mem (k + 1)) L.length).2) = _
    rw [hid, hln]
    have hrec := ih (k + (2 + d.name.length)) htail
    rw [show k + 2 + d.name.length = k + (2 + d.name.length) from by omega, hrec]
    have hnm : (if d.name.length = 0 then [] else
        (List.range d.name.length).map fun j => mem (k + 2 + j)) = d.name := by
      by_cases h0 : d.name.length = 0
      · simp [h0, List.eq_nil_of_length_eq_zero h0]
      · rw [if_neg h0]
        apply List.ext_getElem
        · simp
        · intro i h1 h2
          simp only [List.getElem_map, List.getElem_range]
          rw [hname i (by simpa using h1)]
          exact List.getD_eq_getElem _ _ (by simpa using h1)
    rw [hnm]
    simp [hlen]
    omega

end Emapi

namespace Emapi

/-- C1: Header round-trip identity.  For every header value whose
reserved field is zero (and whose fields fit their C widths),
serializing with kind EMOB_HDR into a zero-initialized 12-byte buffer
and deserializing that buffer with kind EMOB_HDR into a
zero-initialized destination yields the original header, with both
calls returning 12. -/
theorem header_roundtrip (h : emapi_hdr) (hwf : h.Wf) (hz : h.rsvd = 0) :
    emapi_serialize (some (List.replicate 12 0)) (SerObj.hdr h) EMOB_HDR
      = some (12, some (emapi_serialize_hdr h (List.replicate 12 0))) ∧
    emapi_deserialize true emapi_hdr.zero
      (bufMem (emapi_serialize_hdr h (List.replicate 12 0))) EMOB_HDR none
      = DeserOut.hdr h 12 := by
  have hdecode : emapi_deserialize_hdr emapi_hdr.zero
      (bufMem (emapi_serialize_hdr h (List.replicate 12 0))) = h := by
    obtain ⟨hty, hv, htg, hrc, hop, ha, hrs, hln, hbb⟩ := hwf
    obtain ⟨t, v, tg, rcv, op, av, rs, ln, bv⟩ := h
    simp only at hty hv htg hrc hop ha hrs hln hbb hz
    subst hz
    rw [serialize_hdr_replicate]
    unfold emapi_deserialize_hdr bufMem
    simp only [List.getD_cons_zero, List.getD_cons_succ, emapi_hdr.mk.injEq]
    exact ⟨(byte0_roundtrip v hv t hty).2, (byte0_roundtrip v hv t hty).1,
      trivial, trivial, trivial, trivial, rfl, len_roundtrip ln hln,
      b_roundtrip bv hbb⟩
  refine ⟨rfl, ?_⟩
  show DeserOut.hdr (emapi_deserialize_hdr emapi_hdr.zero
      (bufMem (emapi_serialize_hdr h (List.replicate 12 0)))) 12 = _
  rw [hdecode]

/-- Witness for C1 at the testbench header (reserved field zero). -/
theorem header_roundtrip_witness :
    emapi_serialize (some (List.replicate 12 0)) (SerObj.hdr sampleHdr) EMOB_HDR
      = some (12, some (emapi_serialize_hdr sampleHdr (List.replicate 12 0))) ∧
    emapi_deserialize true emapi_hdr.zero
      (bufMem (emapi_serialize_hdr sampleHdr (List.replicate 12 0))) EMOB_HDR none
      = DeserOut.hdr sampleHdr 12 :=
  header_roundtrip sampleHdr (by decide) (by decide)

/-- C2 (code evaluation): emapi_emob_req maps the List-devices opcode
(0x01) to EMOB_LIST_DEV, not to EMOB_NULL as the spec's section 4.3
table and the List-devices request documentation in emapi.h (payload:
none) state; the response side does return EMOB_LIST_DEV. -/
theorem emob_req_listdev_eval :
    emapi_emob_req EMOP_LIST_DEV = EMOB_LIST_DEV ∧
    emapi_emob_req EMOP_LIST_DEV ≠ EMOB_NULL ∧
    emapi_emob_rsp EMOP_LIST_DEV = EMOB_LIST_DEV := by decide

/-- C3 (code evaluation): decoding a device list from the 2-byte
buffer [5, 10] (declared name length 10, zero name bytes supplied)
does not fail: the cursor runs to 12, ten bytes past the buffer end, a
record is produced from whatever lies beyond the buffer (the final
conjunct shows the result changes with out-of-bounds memory), and the
return value is 12, never the error -1. -/
theorem listdev_decode_overread_eval :
    emapi_deserialize true emapi_hdr.zero (bufMem [5, 10]) EMOB_LIST_DEV none
      = DeserOut.list [⟨5, List.replicate 10 0⟩] 12 ∧
    (emapi_deserialize true emapi_hdr.zero (bufMem [5, 10]) EMOB_LIST_DEV none).rv
      ≠ -1 ∧
    List.length [5, 10] < 12 ∧
    emapi_deserialize true emapi_hdr.zero
      (fun i => if i < 2 then bufMem [5, 10] i else 55) EMOB_LIST_DEV none
      = DeserOut.list [⟨5, List.replicate 10 55⟩] 12 := by decide

/-- C4: Byte-exact header encoding of the testbench header
ver 0, category Response, tag 0x42, rc 0xCD, opcode 0xAB, a 0x23,
len 0x1FFF, b 0x12345678 into a zero-initialized 12-byte buffer. -/
theorem header_encode_bytes_exact :
    emapi_serialize (some (List.replicate 12 0)) (SerObj.hdr sampleHdr) EMOB_HDR
      = some (12, some [0x01, 0x42, 0xCD, 0xAB, 0x23, 0x00, 0xFF, 0x1F,
        0x78, 0x56, 0x34, 0x12]) := by decide

end Emapi

namespace Emapi

/-- C5: Device-list round-trip identity.  For every list of at most 64
descriptors with name length at most 125 (well-formed byte values),
each emapi_serialize call with kind EMOB_LIST_DEV emits exactly the
wire image id, len, name and returns 2 + len, and deserializing the
concatenation of those images with count_hint equal to the list length
recovers the original list, consuming exactly the sum of 2 + len over
the descriptors. -/
theorem devlist_roundtrip (L : List emapi_dev)
    (hnum : L.length ≤ EMLN_DEV_NUM)
    (hwf : ∀ d ∈ L, d.id < 256 ∧ d.name.length ≤ EMLN_DEV_NAME ∧
      ∀ x ∈ d.name, x < 256) :
    (∀ d ∈ L, emapi_serialize (some (List.replicate (2 + d.name.length) 0))
        (SerObj.dev d) EMOB_LIST_DEV
        = some (d.name.length + 2, some (devBytes d))) ∧
    emapi_deserialize true emapi_hdr.zero (bufMem (listBytes L)) EMOB_LIST_DEV
        (some L.length)
      = DeserOut.list L ((L.map fun d => 2 + d.name.length).sum) := by
  constructor
  · intro d _
    have hdisp : emapi_serialize (some (List.replicate (2 + d.name.length) 0))
        (SerObj.dev d) EMOB_LIST_DEV
        = some (d.name.length + 2,
            some (emapi_serialize_dev d (List.replicate (2 + d.name.length) 0))) :=
      rfl
    rw [hdisp, serialize_dev_replicate]
  · have hspec := deserialize_list_spec L (bufMem (listBytes L)) 0
      (fun i _ => by simp [bufMem])
    have hdisp : emapi_deserialize true emapi_hdr.zero (bufMem (listBytes L))
        EMOB_LIST_DEV (some L.length)
        = DeserOut.list
            (emapi_deserialize_list (bufMem (listBytes L)) 0 L.length).1
            (emapi_deserialize_list (bufMem (listBytes L)) 0 L.length).2 := rfl
    rw [hdisp, hspec]
    simp [length_listBytes]

/-- Witness for C5 at a concrete two-descriptor list. -/
theorem devlist_roundtrip_witness :
    (∀ d ∈ [emapi_dev.mk 1 [65, 66], emapi_dev.mk 2 []],
      emapi_serialize (some (List.replicate (2 + d.name.length) 0))
        (SerObj.dev d) EMOB_LIST_DEV
        = some (d.name.length + 2, some (devBytes d))) ∧
    emapi_deserialize true emapi_hdr.zero
        (bufMem (listBytes [emapi_dev.mk 1 [65, 66], emapi_dev.mk 2 []]))
        EMOB_LIST_DEV (some 2)
      = DeserOut.list [emapi_dev.mk 1 [65, 66], emapi_dev.mk 2 []] 6 :=
  devlist_roundtrip [emapi_dev.mk 1 [65, 66], emapi_dev.mk 2 []]
    (by decide) (by decide)

/-- C6 (code evaluation): the list decoder enforces no capacity limit.
A descriptor declaring name length 200 (above the 125-byte capacity
EMLN_DEV_NAME) is decoded in full instead of being rejected, and a
count hint of 65 (above the 64-entry capacity EMLN_DEV_NUM) decodes 65
records instead of being rejected; no error is returned in either
case. -/
theorem listdev_decode_capacity_unchecked_eval :
    emapi_deserialize true emapi_hdr.zero
        (bufMem (3 :: 200 :: List.replicate 200 7)) EMOB_LIST_DEV (some 1)
      = DeserOut.list [⟨3, List.replicate 200 7⟩] 202 ∧
    EMLN_DEV_NAME < 200 ∧
    (emapi_deserialize true emapi_hdr.zero
        (bufMem (3 :: 200 :: List.replicate 200 7)) EMOB_LIST_DEV (some 1)).rv
      ≠ -1 ∧
    emapi_deserialize true emapi_hdr.zero
        (bufMem ((List.replicate 65 [9, 0]).flatten)) EMOB_LIST_DEV (some 65)
      = DeserOut.list (List.replicate 65 ⟨9, []⟩) 130 ∧
    EMLN_DEV_NUM < 65 := by decide

/-- C7 counterexample: emapi_serialize performs no null check on its
destination.  Called with a NULL dst and the valid kind EMOB_HDR it
writes through the null pointer (modeled by the undefined result
`none`) instead of returning the error result 0 with no write. -/
theorem serialize_null_dst_counterexample :
    emapi_serialize none (SerObj.hdr emapi_hdr.zero) EMOB_HDR = none ∧
    emapi_serialize none (SerObj.hdr emapi_hdr.zero) EMOB_HDR
      ≠ some (0, none) := by decide

/-- C7 amended: null-target rejection holds for the three builders
(which return 1) and for emapi_deserialize (which returns -1), but not
for emapi_serialize: with a valid object kind it dereferences a NULL
destination unconditionally (result `none`); only an invalid kind
takes its error path (returning 0 without touching the pointers). -/
theorem null_target_rejection_amended (p d n s ty : Nat) (mem : Nat → Nat)
    (param : Option Nat) (prior : emapi_hdr) (src : SerObj) :
    emapi_fill_conn none p d = (1, none) ∧
    emapi_fill_disconn none p d = (1, none) ∧
    emapi_fill_listdev none n s = (1, none) ∧
    emapi_deserialize false prior mem ty param = DeserOut.err ∧
    (emapi_deserialize false prior mem ty param).rv = -1 ∧
    emapi_serialize none src EMOB_HDR = none ∧
    emapi_serialize none src EMOB_LIST_DEV = none ∧
    emapi_serialize none src EMOB_NULL = some (0, none) := by
  refine ⟨rfl, rfl, rfl, ?_, ?_, ?_, ?_, rfl⟩
  · simp [emapi_deserialize]
  · simp [emapi_deserialize, DeserOut.rv]
  · cases src <;> rfl
  · cases src <;> rfl

end Emapi

namespace Emapi

/-- C8: Builder postcondition.  Each of emapi_fill_conn,
emapi_fill_disconn and emapi_fill_listdev fails (returns nonzero) iff
the target is null; on a non-null target it returns 0 and replaces the
header by an all-zero header carrying only the opcode (0x02, 0x03,
0x01 respectively) and the two immediates (reduced to their C field
widths), so version, category, tag, return code, reserved and payload
length are all zero; the rest of the message is untouched. -/
theorem builders_postcondition (p d n s : Nat) (m : emapi_msg) :
    (∀ mo : Option emapi_msg, (emapi_fill_conn mo p d).1 ≠ 0 ↔ mo = none) ∧
    emapi_fill_conn none p d = (1, none) ∧
    emapi_fill_conn (some m) p d =
      (0, some { m with hdr :=
        { type := 0, ver := 0, tag := 0, rc := 0, opcode := EMOP_CONN_DEV,
          a := p % 256, rsvd := 0, len := 0, b := d % 4294967296 } }) ∧
    (∀ mo : Option emapi_msg, (emapi_fill_disconn mo p d).1 ≠ 0 ↔ mo = none) ∧
    emapi_fill_disconn none p d = (1, none) ∧
    emapi_fill_disconn (some m) p d =
      (0, some { m with hdr :=
        { type := 0, ver := 0, tag := 0, rc := 0, opcode := EMOP_DISCON_DEV,
          a := p % 256, rsvd := 0, len := 0, b := d % 4294967296 } }) ∧
    (∀ mo : Option emapi_msg, (emapi_fill_listdev mo n s).1 ≠ 0 ↔ mo = none) ∧
    emapi_fill_listdev none n s = (1, none) ∧
    emapi_fill_listdev (some m) n s =
      (0, some { m with hdr :=
        { type := 0, ver := 0, tag := 0, rc := 0, opcode := EMOP_LIST_DEV,
          a := n % 256, rsvd := 0, len := 0, b := s % 4294967296 } }) := by
  refine ⟨?_, rfl, rfl, ?_, rfl, rfl, ?_, rfl, rfl⟩
  · intro mo
    cases mo <;> simp [emapi_fill_conn]
  · intro mo
    cases mo <;> simp [emapi_fill_disconn]
  · intro mo
    cases mo <;> simp [emapi_fill_listdev]

/-- C9: Registry lookup bounds.  Each of the four name lookups returns
the not-found result (NULL, modeled none) for every code at or above
its max (EMMT_MAX = 3, EMOB_MAX = 3, EMOP_MAX = 4, EMRC_MAX = 6), and
a non-empty string for every code below it; the functions are pure, so
repeated calls return the identical string. -/
theorem registry_lookup_bounds (u : Nat) :
    (EMMT_MAX ≤ u → emmt u = none) ∧
    (u < EMMT_MAX → ∃ s, emmt u = some s ∧ s ≠ "") ∧
    (EMOB_MAX ≤ u → emob u = none) ∧
    (u < EMOB_MAX → ∃ s, emob u = some s ∧ s ≠ "") ∧
    (EMOP_MAX ≤ u → emop u = none) ∧
    (u < EMOP_MAX → ∃ s, emop u = some s ∧ s ≠ "") ∧
    (EMRC_MAX ≤ u → emrc u = none) ∧
    (u < EMRC_MAX → ∃ s, emrc u = some s ∧ s ≠ "") ∧
    emmt u = emmt u ∧ emob u = emob u ∧ emop u = emop u ∧ emrc u = emrc u := by
  refine ⟨?_, ?_, ?_, ?_, ?_, ?_, ?_, ?_, rfl, rfl, rfl, rfl⟩
  · intro hu
    simp [emmt, hu]
  · intro hu
    have hb : u < 3 := hu
    interval_cases u <;> exact ⟨_, rfl, by decide⟩
  · intro hu
    simp [emob, hu]
  · intro hu
    have hb : u < 3 := hu
    interval_cases u <;> exact ⟨_, rfl, by decide⟩
  · intro hu
    simp [emop, hu]
  · intro hu
    have hb : u < 4 := hu
    interval_cases u <;> exact ⟨_, rfl, by decide⟩
  · intro hu
    simp [emrc, hu]
  · intro hu
    have hb : u < 6 := hu
    interval_cases u <;> exact ⟨_, rfl, by decide⟩

/-- Witness for C9: an out-of-range code and an in-range code. -/
theorem registry_lookup_bounds_witness :
    emmt 3 = none ∧ (∃ s, emop 1 = some s ∧ s ≠ "") :=
  ⟨(registry_lookup_bounds 3).1 (by decide),
   (registry_lookup_bounds 1).2.2.2.2.2.1 (by decide)⟩

/-- C10: Header serialization never writes the reserved byte.  On any
destination buffer of length at least 12, emapi_serialize with kind
EMOB_HDR returns 12, keeps the buffer length, assigns offsets 0-4 and
6-11, and leaves the byte at offset 5 exactly as it was before the
call. -/
theorem serialize_hdr_frame (o : emapi_hdr) (dst : List Nat)
    (hlen : 12 ≤ dst.length) :
    emapi_serialize (some dst) (SerObj.hdr o) EMOB_HDR
      = some (12, some (emapi_serialize_hdr o dst)) ∧
    (emapi_serialize_hdr o dst).length = dst.length ∧
    (emapi_serialize_hdr o dst).getD 5 0 = dst.getD 5 0 ∧
    (emapi_serialize_hdr o dst).getD 0 0
      = (((o.ver <<< 4) &&& 0xF0) ||| (o.type &&& 0x0F)) ∧
    (emapi_serialize_hdr o dst).getD 1 0 = o.tag ∧
    (emapi_serialize_hdr o dst).getD 2 0 = o.rc ∧
    (emapi_serialize_hdr o dst).getD 3 0 = o.opcode ∧
    (emapi_serialize_hdr o dst).getD 4 0 = o.a ∧
    (emapi_serialize_hdr o dst).getD 6 0 = (o.len &&& 0xFF) ∧
    (emapi_serialize_hdr o dst).getD 7 0 = ((o.len >>> 8) &&& 0xFF) ∧
    (emapi_serialize_hdr o dst).getD 8 0 = (o.b &&& 0xFF) ∧
    (emapi_serialize_hdr o dst).getD 9 0 = ((o.b >>> 8) &&& 0xFF) ∧
    (emapi_serialize_hdr o dst).getD 10 0 = ((o.b >>> 16) &&& 0xFF) ∧
    (emapi_serialize_hdr o dst).getD 11 0 = ((o.b >>> 24) &&& 0xFF) := by
  have h0 : 0 < dst.length := by omega
  have h1 : 1 < dst.length := by omega
  have h2 : 2 < dst.length := by omega
  have h3 : 3 < dst.length := by omega
  have h4 : 4 < dst.length := by omega
  have h6 : 6 < dst.length := by omega
  have h7 : 7 < dst.length := by omega
  have h8 : 8 < dst.length := by omega
  have h9 : 9 < dst.length := by omega
  have h10 : 10 < dst.length := by omega
  have h11 : 11 < dst.length := by omega
  refine ⟨rfl, ?_⟩
  unfold emapi_serialize_hdr
  simp [List.getD_eq_getElem?_getD, List.getElem?_set, h0, h1, h2, h3, h4, h6,
    h7, h8, h9, h10, h11]

/-- Witness for C10 on a buffer whose byte 5 is the nonzero value 106. -/
theorem serialize_hdr_frame_witness :
    (emapi_serialize_hdr sampleHdr
      [101, 102, 103, 104, 105, 106, 107, 108, 109, 110, 111, 112]).getD 5 0
      = ([101, 102, 103, 104, 105, 106, 107, 108, 109, 110, 111, 112] :
          List Nat).getD 5 0 ∧
    emapi_serialize
        (some [101, 102, 103, 104, 105, 106, 107, 108, 109, 110, 111, 112])
        (SerObj.hdr sampleHdr) EMOB_HDR
      = some (12, some (emapi_serialize_hdr sampleHdr
          [101, 102, 103, 104, 105, 106, 107, 108, 109, 110, 111, 112])) :=
  ⟨(serialize_hdr_frame sampleHdr
      [101, 102, 103, 104, 105, 106, 107, 108, 109, 110, 111, 112]
      (by decide)).2.2.1,
   (serialize_hdr_frame sampleHdr
      [101, 102, 103, 104, 105, 106, 107, 108, 109, 110, 111, 112]
      (by decide)).1⟩

end Emapi
